import Mathlib

/-!
Verification of the cross-reference resolution and classification engine of the
5etools data-reorganization scripts.

The Python sources under `scripts/reorganize/` and `scripts/validation/` are
shallowly embedded below.  JSON values are modelled by the inductive `Json`
(numbers as `Int`; the corpus uses integer pages and string fields).  Python
`dict`s are modelled as insertion-ordered association lists, matching CPython's
ordered-dict semantics.  Filesystem paths are modelled as lists of path
segments; a filesystem is the list of paths that exist.  I/O (loading and
saving files, logging) is abstracted away: file-writing functions return the
list of writes they would perform.
-/

/-- A JSON value, as manipulated by the Python scripts.  Mappings are
insertion-ordered association lists (CPython dict semantics). -/
inductive Json where
  | null
  | bool (b : Bool)
  | num (n : Int)
  | str (s : String)
  | arr (xs : List Json)
  | obj (fields : List (String × Json))

namespace Json

mutual

/-- Structural equality of JSON values (Python `==` on parsed JSON). -/
def jeq (u v : Json) : Bool :=
  match u, v with
  | .null, .null => true
  | .bool p, .bool q => p == q
  | .num p, .num q => p == q
  | .str p, .str q => p == q
  | .arr us, .arr vs => jeqElems us vs
  | .obj uf, .obj vf => jeqPairs uf vf
  | _, _ => false

/-- Elementwise `jeq` on array contents. -/
def jeqElems (us vs : List Json) : Bool :=
  match us, vs with
  | [], [] => true
  | u :: utl, v :: vtl => jeq u v && jeqElems utl vtl
  | _, _ => false

/-- Pairwise key and value comparison on object fields. -/
def jeqPairs (uf vf : List (String × Json)) : Bool :=
  match uf, vf with
  | [], [] => true
  | (a, u) :: utl, (b, v) :: vtl => a == b && jeq u v && jeqPairs utl vtl
  | _, _ => false

end

mutual

theorem eq_of_jeq : ∀ {u v : Json}, jeq u v = true → u = v
  | .null, .null, _ => rfl
  | .bool p, .bool q, h => by simp only [jeq, beq_iff_eq] at h; rw [h]
  | .num p, .num q, h => by simp only [jeq, beq_iff_eq] at h; rw [h]
  | .str p, .str q, h => by simp only [jeq, beq_iff_eq] at h; rw [h]
  | .arr us, .arr vs, h => by
      simp only [jeq] at h
      exact congrArg Json.arr (elems_eq_of_jeq h)
  | .obj uf, .obj vf, h => by
      simp only [jeq] at h
      exact congrArg Json.obj (pairs_eq_of_jeq h)

theorem elems_eq_of_jeq : ∀ {us vs : List Json}, jeqElems us vs = true → us = vs
  | [], [], _ => rfl
  | u :: utl, v :: vtl, h => by
      simp only [jeqElems, Bool.and_eq_true] at h
      rw [eq_of_jeq h.1, elems_eq_of_jeq h.2]

theorem pairs_eq_of_jeq :
    ∀ {uf vf : List (String × Json)}, jeqPairs uf vf = true → uf = vf
  | [], [], _ => rfl
  | (a, u) :: utl, (b, v) :: vtl, h => by
      simp only [jeqPairs, Bool.and_eq_true, beq_iff_eq] at h
      obtain ⟨⟨h1, h2⟩, h3⟩ := h
      rw [h1, eq_of_jeq h2, pairs_eq_of_jeq h3]

end

mutual

theorem jeq_self : ∀ (u : Json), jeq u u = true
  | .null => rfl
  | .bool p => by simp [jeq]
  | .num p => by simp [jeq]
  | .str p => by simp [jeq]
  | .arr us => by simp only [jeq]; exact jeqElems_self us
  | .obj uf => by simp only [jeq]; exact jeqPairs_self uf

theorem jeqElems_self : ∀ (us : List Json), jeqElems us us = true
  | [] => rfl
  | u :: utl => by
      simp only [jeqElems, Bool.and_eq_true]
      exact ⟨jeq_self u, jeqElems_self utl⟩

theorem jeqPairs_self : ∀ (uf : List (String × Json)), jeqPairs uf uf = true
  | [] => rfl
  | (a, u) :: utl => by
      simp only [jeqPairs, Bool.and_eq_true, beq_self_eq_true]
      exact ⟨⟨trivial, jeq_self u⟩, jeqPairs_self utl⟩

end

instance : BEq Json := ⟨jeq⟩

instance : DecidableEq Json := fun u v =>
  if h : jeq u v = true then
    .isTrue (eq_of_jeq h)
  else
    .isFalse (fun huv => h (huv ▸ jeq_self u))

instance : LawfulBEq Json where
  eq_of_beq := eq_of_jeq
  rfl := jeq_self _

/-- Python truthiness of a JSON value (`if not x` tests): `None`, `False`,
`0`, `""`, `[]` and `{}` are falsy, everything else truthy. -/
def truthy : Json → Bool
  | .null => false
  | .bool b => b
  | .num n => n != 0
  | .str s => s != ""
  | .arr xs => !xs.isEmpty
  | .obj fs => !fs.isEmpty

/-- Python truthiness of an optional value (`None` is falsy). -/
def otruthy : Option Json → Bool
  | none => false
  | some j => truthy j

/-- `d.get(k)` on a JSON object: the first binding of `k`, or `None`.
On a non-object the scripts would raise; modelled as `None`. -/
def get (j : Json) (k : String) : Option Json :=
  match j with
  | .obj fs => fs.lookup k
  | _ => none

/-- `d.get(k)` followed by Python's conflation of JSON `null` with `None`:
a present-but-null field behaves exactly like an absent one for
`is not None` tests. -/
def getPy (j : Json) (k : String) : Option Json :=
  match j.get k with
  | some .null => none
  | o => o

/-- `k in d` for a JSON object (membership among the keys). -/
def hasKey (j : Json) (k : String) : Bool :=
  (j.get k).isSome

end Json

/-!
Reducible string primitives mirroring the Python `str` operations the scripts
use (`split` on a one-character separator, `strip`, `lower`, `join`,
`startswith`).  The embedding defines its own because the Lean core
counterparts do not evaluate inside the kernel.
-/

namespace PyStr

/-- Python `s.split(sep)` for a one-character separator, on character lists:
split at every occurrence, keeping empty pieces; never returns an empty
list. -/
def split_char_aux (sep : Char) : List Char → List Char → List (List Char)
  | [], acc => [acc.reverse]
  | c :: cs, acc =>
      if c == sep then acc.reverse :: split_char_aux sep cs []
      else split_char_aux sep cs (c :: acc)

/-- Python `s.split(sep)` for a one-character separator. -/
def split_char (sep : Char) (s : String) : List String :=
  (split_char_aux sep s.toList []).map String.mk

/-- Python `sep.join(xs)` on character lists. -/
def join_char_aux (sep : Char) : List (List Char) → List Char
  | [] => []
  | [x] => x
  | x :: y :: tl => x ++ sep :: join_char_aux sep (y :: tl)

/-- Python `sep.join(xs)` for a one-character separator. -/
def join_char (sep : Char) (xs : List String) : String :=
  String.mk (join_char_aux sep (xs.map String.toList))

/-- Python `s.lower()` (ASCII; the identifiers the scripts compare are
ASCII). -/
def lower (s : String) : String := String.mk (s.toList.map Char.toLower)

/-- Python `s.strip()`: drop leading and trailing whitespace. -/
def strip (s : String) : String :=
  String.mk (((s.toList.dropWhile Char.isWhitespace).reverse.dropWhile
    Char.isWhitespace).reverse)

/-- Python `s.startswith(p)`. -/
def starts_with (s p : String) : Bool := p.toList.isPrefixOf s.toList

end PyStr

/-!
## `scripts/reorganize/utils.py`
-/

namespace ReorgUtils

open Json

/-- `get_entity_source` (utils.py): `None` if the `"source"` key is absent,
otherwise the field's value. -/
def get_entity_source (entity : Json) : Option Json :=
  if entity.hasKey "source" then entity.get "source" else none

/-- Append `e` to the group keyed `k`, preserving dict insertion order
(a fresh key goes to the end, an existing key keeps its position). -/
def add_to_group (gs : List (Json × List Json)) (k : Json) (e : Json) :
    List (Json × List Json) :=
  match gs with
  | [] => [(k, [e])]
  | (k', es) :: tl =>
      if k' == k then (k', es ++ [e]) :: tl else (k', es) :: add_to_group tl k e

/-- `group_entities_by_source` (utils.py): group entities by their `source`
field; entities whose source is absent or falsy are quarantined (logged,
never grouped).  The returned association list models the Python dict in
insertion order. -/
def group_step (gs : List (Json × List Json)) (entity : Json) :
    List (Json × List Json) :=
  match get_entity_source entity with
  | none => gs
  | some source => if truthy source then add_to_group gs source entity else gs

def group_entities_by_source (entities : List Json) : List (Json × List Json) :=
  entities.foldl group_step []

/-- The quarantine list of `group_entities_by_source`: entities with a missing
or falsy `source` field, reported as warnings. -/
def missing_source_entities (entities : List Json) : List Json :=
  entities.filter (fun e => !(otruthy (get_entity_source e)))

/-- Python `page > 0` for a JSON page value (a non-numeric page would raise
a `TypeError` in Python; such comparisons are modelled as `false`). -/
def page_gt_zero : Option Json → Bool
  | some (.num n) => decide (0 < n)
  | _ => false

/-- Replace the value stored at `key` (keeping its position), as Python dict
assignment does for an existing key. -/
def replace_at (seen : List ((Json × Json) × Json)) (key : Json × Json) (e : Json) :
    List ((Json × Json) × Json) :=
  match seen with
  | [] => []
  | (k, v) :: tl => if k == key then (k, e) :: tl else (k, v) :: replace_at tl key e

/-- One iteration of the `deduplicate_entities` loop (utils.py, lines 371-390). -/
def dedup_step (seen : List ((Json × Json) × Json)) (entity : Json) :
    List ((Json × Json) × Json) :=
  let name := entity.get "name"
  let source := entity.get "source"
  if !(otruthy name) || !(otruthy source) then seen
  else
    match name, source with
    | some n, some s =>
        let key := (n, s)
        let page := entity.getPy "page"
        match seen.lookup key with
        | none => seen ++ [(key, entity)]
        | some existing =>
            let existing_page := existing.getPy "page"
            if page.isSome && (existing_page.isNone || page_gt_zero page) then
              replace_at seen key entity
            else
              seen
    | _, _ => seen

/-- `deduplicate_entities` (utils.py): remove duplicates keyed on
`(name, source)`; `list(seen.values())` in key-insertion order. -/
def deduplicate_entities (entities : List Json) : List Json :=
  (entities.foldl dedup_step []).map (·.2)

/-- An image reference as collected by `find_image_references` in utils.py.
Python stores `is_cross_source` as `image_source and image_source != source_id`
(the falsy empty string itself when `image_source` is empty); modelled by the
equivalent truthiness. -/
structure UtilsImageRef where
  path : String
  type : String
  is_cross_source : Bool
  image_source : String
  deriving DecidableEq, Repr

/-- The image-entry check of `_search` (utils.py lines 191-205): a dict with
`type == "image"` and an `href` dict with `type == "internal"` and a `path`.
A non-string `path` would raise in Python and is not collected. -/
def image_entry_refs (source_id : String) (fs : List (String × Json)) :
    List UtilsImageRef :=
  if (Json.obj fs).get "type" == some (.str "image") && (Json.obj fs).hasKey "href" then
    match (Json.obj fs).get "href" with
    | some (.obj hf) =>
        if (Json.obj hf).get "type" == some (.str "internal")
            && (Json.obj hf).hasKey "path" then
          match (Json.obj hf).get "path" with
          | some (.str path) =>
              let path_parts := PyStr.split_char '/' path
              let image_source := path_parts.headD ""
              [{ path := path
                 type := "internal"
                 is_cross_source := image_source != "" && image_source != source_id
                 image_source := image_source }]
          | _ => []
        else []
    | _ => []
  else []

mutual

/-- `_search` of `find_image_references` (utils.py lines 184-214): the walk
stops at any node deeper than 100 (`if depth > 100: return`). -/
def usearch (source_id : String) (depth : Nat) : Json → List UtilsImageRef
  | .obj fs =>
      if depth > 100 then []
      else image_entry_refs source_id fs ++ usearch_values source_id (depth + 1) fs
  | .arr xs =>
      if depth > 100 then [] else usearch_items source_id (depth + 1) xs
  | _ => []

def usearch_values (source_id : String) (depth : Nat) :
    List (String × Json) → List UtilsImageRef
  | [] => []
  | (_, v) :: tl =>
      usearch source_id depth v ++ usearch_values source_id depth tl

def usearch_items (source_id : String) (depth : Nat) : List Json → List UtilsImageRef
  | [] => []
  | v :: tl => usearch source_id depth v ++ usearch_items source_id depth tl

end

/-- `find_image_references` (utils.py lines 165-216). -/
def find_image_references (data : Json) (source_id : String) : List UtilsImageRef :=
  usearch source_id 0 data

/-- `extract_entities_from_json` (utils.py lines 395-428): keep the root keys
that do not start with `_`, hold a list, pass the `entity_types` filter
(no filter when the set is empty/None), and whose first element is a dict. -/
def extract_entities_from_json (data : List (String × Json))
    (entity_types : List String) : List (String × List Json) :=
  data.filterMap (fun kv =>
    let k := kv.1
    if PyStr.starts_with k "_" then none
    else
      match kv.2 with
      | .arr vs =>
          if !entity_types.isEmpty && !entity_types.contains k then none
          else
            match vs with
            | .obj _ :: _ => some (k, vs)
            | _ => none
      | _ => none)

end ReorgUtils

/-!
## `scripts/reorganize/config.py`
-/

namespace ReorgConfig

/-- `ENTITY_TYPES` (config.py): root keys to process.  The Python literal is a
set; repeated elements collapse, and only membership is ever used. -/
def ENTITY_TYPES : List String :=
  ["background", "item", "monster", "class", "subclass", "race", "feat",
   "spell", "deity", "condition", "disease", "language", "object", "vehicle",
   "hazard", "trap", "reward", "recipe", "cult", "boon", "optionalfeature",
   "skill", "sense", "psionic", "action"]

/-- `IMAGE_PATH_SPECIAL_MAPPINGS` (config.py lines 86-133): static override
table from source identifier to the path component used in image paths. -/
def IMAGE_PATH_SPECIAL_MAPPINGS : List (String × String) :=
  [("PS-A", "PSA"), ("PS-I", "PSI"), ("PS-D", "PSD"), ("PS-K", "PSK"),
   ("PS-X", "PSX"), ("PS-Z", "PSZ"),
   ("HAT-TG", "TG"),
   ("AitFR-AVT", "AitFR/AVT"), ("AitFR-DN", "AitFR/DN"),
   ("AitFR-FCD", "AitFR/FCD"), ("AitFR-ISF", "AitFR/ISF"),
   ("AitFR-THP", "AitFR/THP"),
   ("MCV1SC", "MCV/1SC"), ("MCV2DC", "MCV/2DC"), ("MCV3MC", "MCV/3MC"),
   ("MCV4EC", "MCV/4EC"),
   ("TftYP-AtG", "TftYP/AtG"), ("TftYP-DiT", "TftYP/DiT"),
   ("TftYP-TFoF", "TftYP/TFoF"), ("TftYP-THSoT", "TftYP/THSoT"),
   ("TftYP-TSC", "TftYP/TSC"), ("TftYP-ToH", "TftYP/ToH"),
   ("TftYP-WPM", "TftYP/WPM"),
   ("NRH-ASS", "NRH/ASS"), ("NRH-AT", "NRH/AT"), ("NRH-AVitW", "NRH/AVitW"),
   ("NRH-AWoL", "NRH/AWoL"), ("NRH-CoI", "NRH/CoI"), ("NRH-TCMC", "NRH/TCMC"),
   ("NRH-TLT", "NRH/TLT"),
   ("HAT-LMI", "HAT/LMI")]

end ReorgConfig

/-!
## `scripts/reorganize/json_processor.py`
-/

namespace JsonProcessor

open Json ReorgUtils

/-- One per-source file written by `process_json_file`: the partition
directory is `output_dir / source_id / "data"`, the file holds `output_data`,
whose `entity_type` key carries exactly `entities`. -/
structure JsonWrite where
  source_id : Json
  entity_type : String
  entities : List Json
  output_data : Json
  deriving DecidableEq

/-- `process_json_file` (json_processor.py lines 29-124), modelled as the list
of per-source file writes it performs over already-loaded JSON `data`.
Loading, directory creation and `save_json` success bookkeeping are I/O and
are abstracted away; `sources` is the set of known source identifiers from
`books.json` (unknown sources are warned about and skipped). -/
def process_json_file (data : List (String × Json)) (sources : List Json) :
    List JsonWrite :=
  let entity_arrays := extract_entities_from_json data ReorgConfig.ENTITY_TYPES
  entity_arrays.flatMap (fun ta =>
    let entity_type := ta.1
    let grouped := group_entities_by_source ta.2
    grouped.filterMap (fun g =>
      let source_id := g.1
      let source_entities := g.2
      if !sources.contains source_id then none
      else
        let meta_fields :=
          match data.lookup "_meta" with
          | some m => [("_meta", m)]
          | none => []
        some { source_id := source_id
               entity_type := entity_type
               entities := source_entities
               output_data := Json.obj (meta_fields ++ [(entity_type, Json.arr source_entities)]) }))

end JsonProcessor

/-!
## `scripts/validation/image_path_utils.py`

Filesystem paths are lists of segments; `pathlib`'s `/` drops empty
components, so joining a multi-segment string splits it on `/` and drops
empties.  The filesystem itself is the list of paths that exist
(`Path.exists()` is membership).
-/

namespace ImagePathUtils

/-- `pathlib` `/`: append a (possibly multi-segment) string to a path. -/
def path_join (p : List String) (s : String) : List String :=
  p ++ ((PyStr.split_char '/' s).filter (fun seg => seg != ""))

/-- Python `s.split("/", 1)`: at most one split. -/
def split_once (s : String) : List String :=
  match PyStr.split_char '/' s with
  | [] => []
  | [x] => [x]
  | x :: rest => [x, PyStr.join_char '/' rest]

/-- `normalize_source_for_image_path` (image_path_utils.py lines 87-111):
the override-table value when present, else the identifier unchanged.
(The `isinstance(mapping, dict)` branch is dead: every table value is a
plain string.) -/
def normalize_source_for_image_path (source_id : String) : String :=
  match ReorgConfig.IMAGE_PATH_SPECIAL_MAPPINGS.lookup source_id with
  | some mapping => mapping
  | none => source_id

/-- `get_expected_image_path` (image_path_utils.py lines 114-155). -/
def get_expected_image_path (source_id image_path : String)
    (img_dir : List String) : Option (List String) :=
  match split_once image_path with
  | [category, rest] =>
      match PyStr.split_char '/' rest with
      | [] => none
      | path_source :: _ =>
          let normalized_source := normalize_source_for_image_path source_id
          if path_source != normalized_source then none
          else some (path_join (path_join img_dir category) rest)
  | _ => none

/-- `get_actual_image_path` (image_path_utils.py lines 158-216): probe the
path as given, then with the normalized source component, then the `HAT-TG`
historical exception; first existing location wins. -/
def get_actual_image_path (fs : List (List String)) (source_id image_path : String)
    (img_dir : List String) : Option (List String) :=
  match split_once image_path with
  | [category, rest] =>
      match PyStr.split_char '/' rest with
      | [] => none
      | path_source :: tail =>
          let subpath := if tail.isEmpty then none
                         else some (PyStr.join_char '/' tail)
          let join_sub := fun (base : List String) =>
            match subpath with
            | some sp => path_join base sp
            | none => base
          let direct_path := join_sub (path_join (path_join img_dir category) path_source)
          if fs.contains direct_path then some direct_path
          else
            let normalized := normalize_source_for_image_path source_id
            let normalized_path := join_sub (path_join (path_join img_dir category) normalized)
            if fs.contains normalized_path && normalized_path != direct_path then
              some normalized_path
            else if source_id == "HAT-TG" && path_source == "TG" then
              let tg_path := join_sub (path_join (path_join img_dir category) "TG")
              if fs.contains tg_path then some tg_path else none
            else none
  | _ => none

/-- `ImageRef` (image_path_utils.py lines 26-45).  The `context` metadata
dict (parent keys, list indices, used only for logging) is omitted. -/
structure ImageRef where
  source : String
  file : String
  path : String
  category : String
  deriving DecidableEq, Repr

/-- `ValidationResult` (image_path_utils.py lines 48-80). -/
structure ValidationResult where
  image_ref : ImageRef
  status : String
  actual_path : Option (List String)
  expected_path : Option (List String)
  severity : String
  message : String
  deriving DecidableEq, Repr

/-- `Path.relative_to(img_dir)` rendered as a string (the paths compared are
always built on top of `img_dir`). -/
def relative_to (p img_dir : List String) : String :=
  PyStr.join_char '/' (p.drop img_dir.length)

/-- `ref.path.split("/")[1] if "/" in ref.path else ""`
(image_path_utils.py line 309): the source component embedded in an asset
path. -/
def embedded_path_source (path : String) : String :=
  match PyStr.split_char '/' path with
  | _ :: second :: _ => second
  | _ => ""

/-- `validate_image_reference` (image_path_utils.py lines 283-368): the
single-shot classification of one asset reference.  `Path.exists()` is
membership in `fs`. -/
def validate_image_reference (fs : List (List String)) (ref : ImageRef)
    (img_dir : List String) : ValidationResult :=
  let expected_path := get_expected_image_path ref.source ref.path img_dir
  let actual_path := get_actual_image_path fs ref.source ref.path img_dir
  let normalized := normalize_source_for_image_path ref.source
  let path_source := embedded_path_source ref.path
  let actual_exists :=
    match actual_path with
    | some ap => fs.contains ap
    | none => false
  let after_special : ValidationResult :=
    match expected_path with
    | none =>
        { image_ref := ref
          status := "cross_source"
          actual_path := actual_path
          expected_path := none
          severity := "info"
          message := "Cross-source reference to " ++ path_source }
    | some ep =>
        if actual_exists then
          match actual_path with
          | some ap =>
              if ap = ep then
                { image_ref := ref
                  status := "valid"
                  actual_path := some ap
                  expected_path := some ep
                  severity := "info"
                  message := "Image path is valid" }
              else
                { image_ref := ref
                  status := "unexpected_location"
                  actual_path := some ap
                  expected_path := some ep
                  severity := "warning"
                  message := "Image exists at " ++ relative_to ap img_dir
                    ++ ", expected at " ++ relative_to ep img_dir }
          | none =>
              { image_ref := ref
                status := "missing"
                actual_path := none
                expected_path := some ep
                severity := "critical"
                message := "Image not found at " ++ relative_to ep img_dir }
        else
          { image_ref := ref
            status := "missing"
            actual_path := none
            expected_path := some ep
            severity := "critical"
            message := "Image not found at " ++ relative_to ep img_dir }
  if (ReorgConfig.IMAGE_PATH_SPECIAL_MAPPINGS.lookup ref.source).isSome
      && path_source == normalized && actual_exists then
    { image_ref := ref
      status := "special_case"
      actual_path := actual_path
      expected_path := expected_path
      severity := "info"
      message := "Special case: " ++ ref.source ++ " uses " ++ normalized
        ++ " in image paths (design decision)" }
  else after_special

mutual

/-- `extract_from_value`, the walk of the validation-side
`find_image_references` (image_path_utils.py lines 240-273): no depth
counter guards this recursion. -/
def vsearch (source : String) (filename : String) : Json → List ImageRef
  | .obj fs =>
      let entry :=
        if (Json.obj fs).get "type" == some (.str "image") then
          match (Json.obj fs).get "href" with
          | some (.obj hf) =>
              match (Json.obj hf).get "path" with
              | some (.str p) =>
                  if p != "" then
                    [{ source := source
                       file := filename
                       path := p
                       category := if (PyStr.split_char '/' p).length > 1
                                   then (PyStr.split_char '/' p).headD "unknown"
                                   else "unknown" }]
                  else []
              | _ => []
          | _ => []
        else []
      entry ++ vsearch_values source filename fs
  | .arr xs => vsearch_items source filename xs
  | _ => []

def vsearch_values (source : String) (filename : String) :
    List (String × Json) → List ImageRef
  | [] => []
  | (_, v) :: tl => vsearch source filename v ++ vsearch_values source filename tl

def vsearch_items (source : String) (filename : String) : List Json → List ImageRef
  | [] => []
  | v :: tl => vsearch source filename v ++ vsearch_items source filename tl

end

/-- `find_image_references` (image_path_utils.py lines 223-276). -/
def find_image_references (data : Json) (source filename : String) : List ImageRef :=
  vsearch source filename data

end ImagePathUtils

/-!
## `scripts/validation/check_image_paths.py`
-/

namespace CheckImagePaths

open ImagePathUtils

/-- `run_full_audit` categorization (check_image_paths.py lines 130-133):
validations falling in the `missing` bucket. -/
def missing_results (vs : List ValidationResult) : List ValidationResult :=
  vs.filter (fun v => v.status == "missing")

/-- `critical_count` of `_generate_report` (check_image_paths.py line 149). -/
def critical_issues (vs : List ValidationResult) : Nat :=
  (missing_results vs).length

/-- `warning_count` of `_generate_report` (check_image_paths.py line 150). -/
def warning_issues (vs : List ValidationResult) : Nat :=
  (vs.filter (fun v => v.status == "unexpected_location")).length

/-- `info_count` of `_generate_report` (check_image_paths.py lines 151-155). -/
def info_issues (vs : List ValidationResult) : Nat :=
  (vs.filter (fun v => v.status == "valid")).length
    + (vs.filter (fun v => v.status == "special_case")).length
    + (vs.filter (fun v => v.status == "cross_source")).length

/-- The process exit code of `main` (check_image_paths.py lines 334-338),
under the stated assumptions (both root directories exist, the audit raises
no exception): `1` when any critical (`missing`) issue exists, else `0`. -/
def main_exit_code (vs : List ValidationResult) : Nat :=
  if critical_issues vs > 0 then 1 else 0

end CheckImagePaths

/-!
## `scripts/validation/check_links.py`
-/

namespace CheckLinks

open Json

/-- `ENTITY_TAGS` (check_links.py lines 33-39): the closed set of recognized
entity reference kinds. -/
def ENTITY_TAGS : List String :=
  ["spell", "item", "creature", "feat", "race", "background",
   "deity", "class", "subclass", "condition", "disease", "skill",
   "language", "cult", "boon", "object", "vehicle", "optionalfeature",
   "variantrule", "charoption", "card", "group", "recipe", "reward",
   "sense", "trap", "hazard", "creatureTemplate"]

/-- `\w` of `TAG_PATTERN` (the corpus tags are ASCII). -/
def is_word_char (c : Char) : Bool := c.isAlphanum || c == '_'

/-- One match of `TAG_PATTERN = \{@(\w+)\s+([^}]*)\}`: group 1 (`kind`),
the whitespace run, and group 2 (`content`). -/
structure TagMatch where
  kind : String
  ws : String
  content : String
  deriving DecidableEq, Repr

/-- `match.group(0)`: the full matched text. -/
def TagMatch.full_tag (m : TagMatch) : String :=
  "\x7b@" ++ m.kind ++ m.ws ++ m.content ++ "\x7d"

/-- Try to match `TAG_PATTERN` at the head of the character list, returning
the match and the remaining characters: `{`, `@`, a nonempty run of word
characters, a nonempty whitespace run, a run of non-`}` characters, `}`. -/
def match_tag_at : List Char → Option (TagMatch × List Char)
  | '\x7b' :: '@' :: rest =>
      let w := rest.takeWhile is_word_char
      let r1 := rest.dropWhile is_word_char
      if w.isEmpty then none
      else
        let sp := r1.takeWhile Char.isWhitespace
        let r2 := r1.dropWhile Char.isWhitespace
        if sp.isEmpty then none
        else
          let content := r2.takeWhile (fun c => c != '\x7d')
          let r3 := r2.dropWhile (fun c => c != '\x7d')
          match r3 with
          | '\x7d' :: r4 =>
              some ({ kind := String.mk w, ws := String.mk sp,
                      content := String.mk content }, r4)
          | _ => none
  | _ => none

/-- `TAG_PATTERN.finditer`: non-overlapping left-to-right matches.  Each step
consumes at least one character, so fuel equal to the input length makes the
scan exact. -/
def find_tags_aux : Nat → List Char → List TagMatch
  | 0, _ => []
  | _ + 1, [] => []
  | fuel + 1, c :: cs =>
      match match_tag_at (c :: cs) with
      | some (m, rest) => m :: find_tags_aux fuel rest
      | none => find_tags_aux fuel cs

/-- All matches of `TAG_PATTERN` in a string, in order. -/
def find_tags (s : String) : List TagMatch :=
  find_tags_aux s.toList.length s.toList

/-- One record stored in the `LinkChecker.entities` index
(check_links.py lines 150-157). -/
structure IdxEntity where
  name : Json
  source : Json
  data : Json
  file : String
  deriving DecidableEq

/-- The `LinkChecker.entities` index:
`category -> source -> list of records`, both dict levels in insertion
order (`defaultdict(lambda: defaultdict(list))`). -/
def Index : Type := List (String × List (Json × List IdxEntity))

/-- Append a record at the end of the list stored under `source`, creating a
missing key at the end, as a `defaultdict(list)` does. -/
def idx_add_src (srcs : List (Json × List IdxEntity)) (source : Json)
    (e : IdxEntity) : List (Json × List IdxEntity) :=
  match srcs with
  | [] => [(source, [e])]
  | (s, es) :: tl =>
      if s == source then (s, es ++ [e]) :: tl
      else (s, es) :: idx_add_src tl source e

/-- Append a record under `(category, source)`, creating missing keys at the
end, as the nested `defaultdict` does. -/
def idx_add (idx : Index) (category : String) (source : Json) (e : IdxEntity) :
    Index :=
  match idx with
  | [] => [(category, [(source, [e])])]
  | (c, srcs) :: tl =>
      if c == category then
        (c, idx_add_src srcs source e) :: tl
      else
        (c, srcs) :: idx_add tl category source e

/-- Python `x or y` (returns `x` when truthy, else `y`) over optional JSON
values. -/
def py_or (a b : Option Json) : Option Json :=
  if otruthy a then a else b

/-- `_process_entities` (check_links.py lines 140-157): index each dict
entity by category and source; the name falls back from `name` to `id` to
`shortName`; entities lacking a truthy name or source are skipped. -/
def process_entities (idx : Index) (entities : List Json) (category : String)
    (source_file : String) : Index :=
  entities.foldl
    (fun idx entity =>
      match entity with
      | .obj _ =>
          let name := py_or (py_or (entity.get "name") (entity.get "id"))
            (entity.get "shortName")
          let source := entity.get "source"
          if otruthy name && otruthy source then
            match name, source with
            | some n, some s =>
                idx_add idx category s
                  { name := n, source := s, data := entity, file := source_file }
            | _, _ => idx
          else idx
      | _ => idx)
    idx

/-- `category_map` of `_find_entity` (check_links.py lines 230-244). -/
def category_map : List (String × String) :=
  [("spell", "spell"), ("item", "item"), ("creature", "monster"),
   ("feat", "feat"), ("race", "race"), ("background", "background"),
   ("deity", "deity"), ("class", "class"), ("subclass", "subclass"),
   ("condition", "condition"), ("disease", "disease"),
   ("language", "language"), ("card", "card")]

/-- Python `needle in haystack` on strings (substring test). -/
def str_contains_sub (haystack needle : String) : Bool :=
  (List.range (haystack.toList.length + 1)).any
    (fun i => needle.toList.isPrefixOf (haystack.toList.drop i))

/-- `value.lower() == s` for a JSON value: the lowercased string compares
equal (a non-string value would raise `AttributeError` in Python; modelled
as an unequal comparison). -/
def str_lower_eq (j : Json) (s : String) : Bool :=
  match j with
  | .str t => PyStr.lower t == s
  | _ => false

/-- Category resolution of `_find_entity` (check_links.py lines 246-259):
the direct map, else an exact index key, else the first index key related to
the tag type by case-insensitive substring containment either way. -/
def resolve_category (idx : Index) (tag_type : String) : Option String :=
  match category_map.lookup tag_type with
  | some c => some c
  | none =>
      if (idx.lookup tag_type).isSome then some tag_type
      else
        match idx.find? (fun ce =>
            str_contains_sub (PyStr.lower ce.1) (PyStr.lower tag_type)
              || str_contains_sub (PyStr.lower tag_type) (PyStr.lower ce.1)) with
        | some ce => some ce.1
        | none => none

/-- `_find_entity` (check_links.py lines 227-279).  With a truthy requested
source, scan the category's sources in insertion order, and inside each
source whose key lowercases to the request, take the first record whose name
lowercases to the requested name; with no (or a falsy) requested source,
take the first name match across all sources. -/
def find_entity (idx : Index) (tag_type : String) (name : String)
    (source : Option String) : Option IdxEntity :=
  match resolve_category idx tag_type with
  | none => none
  | some category =>
      match idx.lookup category with
      | none => none
      | some srcs =>
          let search_all : Option IdxEntity :=
            srcs.findSome? (fun se =>
              se.2.find? (fun e => str_lower_eq e.name name))
          match source with
          | some src =>
              if src != "" then
                srcs.findSome? (fun se =>
                  if str_lower_eq se.1 src then
                    se.2.find? (fun e => str_lower_eq e.name name)
                  else none)
              else search_all
          | none => search_all

end CheckLinks

namespace CheckLinks

/-- One entry of `self.broken_links` (check_links.py lines 206-214).
Python renders `in_entity` as `f"{entity_name} ({entity_source})"`; the two
values are kept structured here. -/
structure BrokenLink where
  tag : String
  tag_type : String
  target_name : String
  target_source : Option String
  in_entity_name : Json
  in_entity_source : Json
  in_file : String
  reason : String
  deriving DecidableEq

/-- One entry of `self.cross_source_links` (check_links.py lines 217-225). -/
structure CrossLink where
  tag : String
  tag_type : String
  target_name : String
  target_requested_source : String
  target_actual_source : Json
  in_entity_name : Json
  in_entity_source : Json
  in_file : String
  deriving DecidableEq

/-- The mutable checker state touched by `_check_string_links`:
`total_links_checked`, `broken_links`, `cross_source_links`. -/
structure LinkState where
  total_links_checked : Nat
  broken_links : List BrokenLink
  cross_source_links : List CrossLink
  deriving DecidableEq

/-- `parts[0].strip().lower()` of the tag payload split on `|`
(check_links.py lines 195-196). -/
def parse_tag_name (content : String) : String :=
  PyStr.lower (PyStr.strip ((PyStr.split_char '|' content).headD ""))

/-- `parts[1].strip().lower() if len(parts) > 1 else None`
(check_links.py line 197). -/
def parse_tag_source (content : String) : Option String :=
  match PyStr.split_char '|' content with
  | _ :: p1 :: _ => some (PyStr.lower (PyStr.strip p1))
  | _ => none

/-- The body of the `for match in matches` loop for a tag whose kind passed
the `ENTITY_TAGS` filter (check_links.py lines 194-225): parse the payload,
look the entity up, and record a broken or cross-source link. -/
def check_tag_occurrence (idx : Index) (einfo : IdxEntity) (file_path : String)
    (st : LinkState) (m : TagMatch) : LinkState :=
  let name := parse_tag_name m.content
  let source := parse_tag_source m.content
  match find_entity idx m.kind name source with
  | none =>
      { st with broken_links := st.broken_links ++
          [{ tag := m.full_tag
             tag_type := m.kind
             target_name := name
             target_source := source
             in_entity_name := einfo.name
             in_entity_source := einfo.source
             in_file := file_path
             reason := "Entity not found" }] }
  | some found =>
      match source with
      | some src =>
          if src != "" && !(str_lower_eq found.source src) then
            { st with cross_source_links := st.cross_source_links ++
                [{ tag := m.full_tag
                   tag_type := m.kind
                   target_name := name
                   target_requested_source := src
                   target_actual_source := found.source
                   in_entity_name := einfo.name
                   in_entity_source := einfo.source
                   in_file := file_path }] }
          else st
      | none => st

/-- The `for match in matches` loop of `_check_string_links`
(check_links.py lines 183-225).  Each match first increments
`total_links_checked`; a kind outside `ENTITY_TAGS` then executes `return`,
which abandons the remaining matches of this string. -/
def check_tags_loop (idx : Index) (einfo : IdxEntity) (file_path : String) :
    List TagMatch → LinkState → LinkState
  | [], st => st
  | m :: tl, st =>
      let st1 := { st with total_links_checked := st.total_links_checked + 1 }
      if !ENTITY_TAGS.contains m.kind then st1
      else check_tags_loop idx einfo file_path tl
        (check_tag_occurrence idx einfo file_path st1 m)

/-- `_check_string_links` (check_links.py lines 179-225). -/
def check_string_links (idx : Index) (text : String) (einfo : IdxEntity)
    (file_path : String) (st : LinkState) : LinkState :=
  check_tags_loop idx einfo file_path (find_tags text) st

mutual

/-- `_check_entity_links` (check_links.py lines 168-177): the tag scanner's
recursive walk over a record's structure.  It carries no depth counter. -/
def check_entity_links (idx : Index) (einfo : IdxEntity) (file_path : String) :
    Json → LinkState → LinkState
  | .str s, st => check_string_links idx s einfo file_path st
  | .obj fs, st => cel_fields idx einfo file_path fs st
  | .arr xs, st => cel_items idx einfo file_path xs st
  | _, st => st

def cel_fields (idx : Index) (einfo : IdxEntity) (file_path : String) :
    List (String × Json) → LinkState → LinkState
  | [], st => st
  | (_, v) :: tl, st =>
      cel_fields idx einfo file_path tl
        (check_entity_links idx einfo file_path v st)

def cel_items (idx : Index) (einfo : IdxEntity) (file_path : String) :
    List Json → LinkState → LinkState
  | [], st => st
  | v :: tl, st =>
      cel_items idx einfo file_path tl
        (check_entity_links idx einfo file_path v st)

end

end CheckLinks

/-!
## Verification

Concrete sample data and the theorems settling the specification claims.
-/

namespace Verification

open Json ReorgUtils

/-- A record with `page = 12`. -/
def ent_page12 : Json :=
  .obj [("name", .str "Fireball"), ("source", .str "PHB"), ("page", .num 12)]

/-- A record with the same `(name, source)` key and `page = 5`. -/
def ent_page5 : Json :=
  .obj [("name", .str "Fireball"), ("source", .str "PHB"), ("page", .num 5)]

/-- A record with the same `(name, source)` key and no `page` attribute. -/
def ent_nopage : Json :=
  .obj [("name", .str "Fireball"), ("source", .str "PHB")]

end Verification

/-- C2, failing input.  `deduplicate_entities`'s own docstring says "If both
have page numbers, prefer the larger page number (likely reprint)", and the
claim states the same; but the replacement condition is
`page is not None and (existing_page is None or page > 0)` (utils.py line
386), which compares the new page against `0` instead of against the
existing page.  On two records keyed `("Fireball", "PHB")` with pages 12 and
5, the later record with the *smaller* page 5 replaces the earlier one with
page 12; with the order reversed the larger page happens to win, so the
outcome is order-dependent, not "larger page wins". -/
theorem c2_dedup_tie_break_bug :
    ReorgUtils.deduplicate_entities [Verification.ent_page12, Verification.ent_page5]
        = [Verification.ent_page5]
      ∧ ReorgUtils.deduplicate_entities [Verification.ent_page5, Verification.ent_page12]
        = [Verification.ent_page12]
      ∧ Json.get Verification.ent_page12 "page" = some (.num 12)
      ∧ Json.get Verification.ent_page5 "page" = some (.num 5) := by
  refine ⟨by decide, by decide, by decide, by decide⟩

/-- C8: for any two records with identical truthy `(name, source)` keys where
one carries `page = 12` and the other carries no page attribute, the record
with `page = 12` is kept by `deduplicate_entities`, in either input order:
arriving second it replaces the page-less record (`existing_page is None`),
arriving first it is never replaced (the challenger's `page is None`). -/
theorem c8_dedup_one_sided_page (e1 e2 n s : Json)
    (hn1 : Json.get e1 "name" = some n) (hs1 : Json.get e1 "source" = some s)
    (hn2 : Json.get e2 "name" = some n) (hs2 : Json.get e2 "source" = some s)
    (htn : Json.truthy n = true) (hts : Json.truthy s = true)
    (hp1 : Json.getPy e1 "page" = some (.num 12))
    (hp2 : Json.getPy e2 "page" = none) :
    ReorgUtils.deduplicate_entities [e1, e2] = [e1]
      ∧ ReorgUtils.deduplicate_entities [e2, e1] = [e1] := by
  open Json ReorgUtils in
  constructor
  · simp only [deduplicate_entities, List.foldl, dedup_step, hn1, hs1, hn2, hs2,
      hp1, hp2, otruthy, htn, hts, Bool.not_true, Bool.or_self, Bool.false_or,
      if_false, List.lookup, beq_self_eq_true, List.nil_append,
      Option.isSome_none, Bool.false_and, page_gt_zero]
    simp [List.lookup]
  · simp only [deduplicate_entities, List.foldl, dedup_step, hn1, hs1, hn2, hs2,
      hp1, hp2, otruthy, htn, hts]
    simp [List.lookup, replace_at, hp2, page_gt_zero]

/-- C8, witnessed at `("Fireball", "PHB")` records with and without a page. -/
theorem c8_dedup_one_sided_page_witness :
    Json.getPy Verification.ent_page12 "page" = some (.num 12)
      ∧ Json.getPy Verification.ent_nopage "page" = none
      ∧ (ReorgUtils.deduplicate_entities
            [Verification.ent_page12, Verification.ent_nopage]
            = [Verification.ent_page12]
        ∧ ReorgUtils.deduplicate_entities
            [Verification.ent_nopage, Verification.ent_page12]
            = [Verification.ent_page12]) :=
  ⟨by decide, by decide,
    c8_dedup_one_sided_page Verification.ent_page12 Verification.ent_nopage
      (.str "Fireball") (.str "PHB") (by decide) (by decide) (by decide)
      (by decide) (by decide) (by decide) (by decide) (by decide)⟩

namespace Verification

open Json ReorgUtils

theorem group_step_none {gs : List (Json × List Json)} {e : Json}
    (h : get_entity_source e = none) : group_step gs e = gs := by
  unfold group_step; rw [h]

theorem group_step_some {gs : List (Json × List Json)} {e src : Json}
    (h : get_entity_source e = some src) :
    group_step gs e = if truthy src then add_to_group gs src e else gs := by
  unfold group_step; rw [h]

/-- `add_to_group` preserves the grouping invariant: every entity filed under
a key has that key as its `source` field. -/
theorem add_to_group_inv {gs : List (Json × List Json)} {k e : Json}
    (hgs : ∀ p ∈ gs, ∀ x ∈ p.2, get_entity_source x = some p.1)
    (he : get_entity_source e = some k) :
    ∀ p ∈ add_to_group gs k e, ∀ x ∈ p.2, get_entity_source x = some p.1 := by
  induction gs with
  | nil =>
      intro p hp x hx
      simp only [add_to_group, List.mem_singleton] at hp
      subst hp
      simp only [List.mem_singleton] at hx
      subst hx
      exact he
  | cons hd tl ih =>
      intro p hp x hx
      obtain ⟨k', es⟩ := hd
      simp only [add_to_group] at hp
      by_cases hk : (k' == k) = true
      · rw [if_pos hk] at hp
        rcases List.mem_cons.mp hp with h1 | h2
        · subst h1
          rcases List.mem_append.mp hx with hx1 | hx2
          · exact hgs (k', es) (List.mem_cons_self _ _) x hx1
          · simp only [List.mem_singleton] at hx2
            subst hx2
            rw [he]
            exact congrArg some (LawfulBEq.eq_of_beq hk).symm
        · exact hgs p (List.mem_cons_of_mem _ h2) x hx
      · rw [if_neg hk] at hp
        rcases List.mem_cons.mp hp with h1 | h2
        · subst h1
          exact hgs (k', es) (List.mem_cons_self _ _) x hx
        · exact ih (fun q hq => hgs q (List.mem_cons_of_mem _ hq)) p h2 x hx

theorem group_foldl_inv (entities : List Json) :
    ∀ gs : List (Json × List Json),
      (∀ p ∈ gs, ∀ x ∈ p.2, get_entity_source x = some p.1) →
      ∀ p ∈ entities.foldl group_step gs,
        ∀ x ∈ p.2, get_entity_source x = some p.1 := by
  induction entities with
  | nil => intro gs hgs; simpa using hgs
  | cons e tl ih =>
      intro gs hgs
      rw [List.foldl_cons]
      cases hsrc : get_entity_source e with
      | none => rw [group_step_none hsrc]; exact ih gs hgs
      | some src =>
          rw [group_step_some hsrc]
          by_cases ht : truthy src = true
          · rw [if_pos ht]
            exact ih _ (add_to_group_inv hgs hsrc)
          · rw [if_neg ht]
            exact ih gs hgs

/-- Every group produced by `group_entities_by_source` contains only entities
whose `source` field equals the group's key. -/
theorem group_entities_by_source_inv (entities : List Json) :
    ∀ p ∈ group_entities_by_source entities, ∀ x ∈ p.2,
      get_entity_source x = some p.1 :=
  group_foldl_inv entities [] (by simp)

/-- One spell array, used to witness the partitioning claims. -/
def spell_data : List (String × Json) := [("spell", .arr [ent_page12])]

/-- The known-source list containing only `PHB`. -/
def spell_sources : List Json := [.str "PHB"]

/-- The single write `process_json_file` performs on `spell_data`. -/
def spell_write : JsonProcessor.JsonWrite :=
  { source_id := .str "PHB"
    entity_type := "spell"
    entities := [ent_page12]
    output_data := .obj [("spell", .arr [ent_page12])] }

end Verification

/-- C1, source purity: every per-source file written by `process_json_file`
contains only entities whose `source` field equals the partition identifier
the file is written under.  Grouping files an entity under exactly the value
of its own `source` field, and each write emits one group unchanged. -/
theorem c1_source_purity (data : List (String × Json)) (sources : List Json)
    (w : JsonProcessor.JsonWrite)
    (hw : w ∈ JsonProcessor.process_json_file data sources) :
    ∀ e ∈ w.entities, ReorgUtils.get_entity_source e = some w.source_id := by
  unfold JsonProcessor.process_json_file at hw
  rw [List.mem_flatMap] at hw
  obtain ⟨ta, hta, hw2⟩ := hw
  rw [List.mem_filterMap] at hw2
  obtain ⟨g, hg, hf⟩ := hw2
  dsimp only at hf
  split at hf
  · exact absurd hf (by simp)
  · rw [Option.some_inj] at hf
    subst hf
    intro e he
    exact Verification.group_entities_by_source_inv ta.2 g hg e he

/-- C1, witnessed on a one-spell input partitioned under `PHB`. -/
theorem c1_source_purity_witness :
    Verification.spell_write
        ∈ JsonProcessor.process_json_file Verification.spell_data
            Verification.spell_sources
      ∧ ReorgUtils.get_entity_source Verification.ent_page12
          = some Verification.spell_write.source_id :=
  ⟨by decide,
    c1_source_purity Verification.spell_data Verification.spell_sources
      Verification.spell_write (by decide) Verification.ent_page12 (by decide)⟩

/-- C5, audit verdict: the image-path audit exits non-zero exactly when at
least one `missing` (critical) classification result exists, assuming both
root directories exist and the audit raises no exception (the exit paths at
check_image_paths.py lines 308-314 and 340-342 are outside this model).
`critical_issues` counts precisely the `missing` bucket, and `main` returns
`1` iff that count is positive. -/
theorem c5_audit_verdict (vs : List ImagePathUtils.ValidationResult) :
    CheckImagePaths.main_exit_code vs ≠ 0 ↔ ∃ v ∈ vs, v.status = "missing" := by
  unfold CheckImagePaths.main_exit_code CheckImagePaths.critical_issues
    CheckImagePaths.missing_results
  constructor
  · intro h
    have hc : 0 < (vs.filter (fun v => v.status == "missing")).length := by
      by_contra hc
      exact h (if_neg hc)
    obtain ⟨v, hv⟩ := List.length_pos_iff_exists_mem.mp hc
    have hm := List.mem_filter.mp hv
    exact ⟨v, hm.1, by simpa using hm.2⟩
  · rintro ⟨v, hvm, hs⟩
    have hv : v ∈ vs.filter (fun v => v.status == "missing") :=
      List.mem_filter.mpr ⟨hvm, by simp [hs]⟩
    have hc : 0 < (vs.filter (fun v => v.status == "missing")).length :=
      List.length_pos_iff_exists_mem.mpr ⟨v, hv⟩
    rw [if_pos hc]
    exact one_ne_zero

/-- C7, expected-path cross-source law: for a well-formed asset path (at
least two `/`-delimited segments, i.e. `split("/", 1)` yields a category and
a rest) whose embedded source component differs from the source's normalized
path component, `get_expected_image_path` returns `None`; when the embedded
component equals the normalized one it returns
`img_dir / category / rest`, the location under the source's own
partition. -/
theorem c7_expected_path_law (source image_path : String) (img_dir : List String)
    (category rest ps : String) (tail : List String)
    (hsplit : ImagePathUtils.split_once image_path = [category, rest])
    (hps : PyStr.split_char '/' rest = ps :: tail) :
    (ps ≠ ImagePathUtils.normalize_source_for_image_path source →
      ImagePathUtils.get_expected_image_path source image_path img_dir = none)
    ∧ (ps = ImagePathUtils.normalize_source_for_image_path source →
      ImagePathUtils.get_expected_image_path source image_path img_dir =
        some (ImagePathUtils.path_join
          (ImagePathUtils.path_join img_dir category) rest)) := by
  unfold ImagePathUtils.get_expected_image_path
  rw [hsplit]
  dsimp only
  rw [hps]
  dsimp only
  constructor
  · intro hne
    rw [if_pos (by simpa using hne)]
  · intro heq
    rw [if_neg (by simpa using heq)]

/-- C7, witnessed on `bestiary/MM/Goblin.webp`: cross-source from `DMG`
(embedded `MM` differs), resolved under `MM`'s own partition otherwise. -/
theorem c7_expected_path_law_witness :
    ImagePathUtils.get_expected_image_path "DMG" "bestiary/MM/Goblin.webp" ["img"]
        = none
      ∧ ImagePathUtils.get_expected_image_path "MM" "bestiary/MM/Goblin.webp" ["img"]
        = some (ImagePathUtils.path_join
            (ImagePathUtils.path_join ["img"] "bestiary") "MM/Goblin.webp") :=
  ⟨(c7_expected_path_law "DMG" "bestiary/MM/Goblin.webp" ["img"] "bestiary"
      "MM/Goblin.webp" "MM" ["Goblin.webp"] (by decide) (by decide)).1 (by decide),
   (c7_expected_path_law "MM" "bestiary/MM/Goblin.webp" ["img"] "bestiary"
      "MM/Goblin.webp" "MM" ["Goblin.webp"] (by decide) (by decide)).2 (by decide)⟩

namespace Verification

/-- `get_actual_image_path` only returns locations that exist: every `some`
branch is guarded by an existence probe. -/
theorem get_actual_image_path_mem {fs : List (List String)}
    {source path : String} {img_dir : List String} {p : List String}
    (h : ImagePathUtils.get_actual_image_path fs source path img_dir = some p) :
    fs.contains p = true := by
  unfold ImagePathUtils.get_actual_image_path at h
  split at h
  · split at h
    · exact Option.noConfusion h
    · split at h <;> dsimp only at h <;> repeat' split at h
      all_goals first
        | exact Option.noConfusion h
        | (rw [Option.some_inj] at h; subst h; assumption)
        | (rw [Option.some_inj] at h; subst h; simp_all)
  · exact Option.noConfusion h

end Verification

/-- C6, special case precedes a missing verdict: when the override table
lists the reference's source, the path's embedded source component equals
the source's normalized value, and the actual-path probe finds an existing
location, `validate_image_reference` classifies the reference
`special_case` with severity `info` — this check runs before every other
outcome, so no `missing` verdict can pre-empt it. -/
theorem c6_special_case_precedes_missing (fs : List (List String))
    (ref : ImagePathUtils.ImageRef) (img_dir : List String) (ap : List String)
    (hmap : (ReorgConfig.IMAGE_PATH_SPECIAL_MAPPINGS.lookup ref.source).isSome
      = true)
    (hps : ImagePathUtils.embedded_path_source ref.path
      = ImagePathUtils.normalize_source_for_image_path ref.source)
    (hact : ImagePathUtils.get_actual_image_path fs ref.source ref.path img_dir
      = some ap) :
    (ImagePathUtils.validate_image_reference fs ref img_dir).status
        = "special_case"
      ∧ (ImagePathUtils.validate_image_reference fs ref img_dir).severity
        = "info" := by
  have hex : fs.contains ap = true := Verification.get_actual_image_path_mem hact
  unfold ImagePathUtils.validate_image_reference
  dsimp only
  rw [hact, hps]
  simp only [hmap, hex, beq_self_eq_true, Bool.and_self, Bool.true_and,
    Bool.and_true, if_true]
  exact ⟨trivial, trivial⟩

/-- C6, witnessed on Scenario B: `book/PSA/001.webp` under source `PS-A`
(override `PS-A -> PSA`) with the file present at `img/book/PSA/001.webp`. -/
theorem c6_special_case_precedes_missing_witness :
    ImagePathUtils.get_actual_image_path [["img", "book", "PSA", "001.webp"]]
        "PS-A" "book/PSA/001.webp" ["img"] = some ["img", "book", "PSA", "001.webp"]
      ∧ ((ImagePathUtils.validate_image_reference
            [["img", "book", "PSA", "001.webp"]]
            ⟨"PS-A", "book.json", "book/PSA/001.webp", "book"⟩ ["img"]).status
          = "special_case"
        ∧ (ImagePathUtils.validate_image_reference
            [["img", "book", "PSA", "001.webp"]]
            ⟨"PS-A", "book.json", "book/PSA/001.webp", "book"⟩ ["img"]).severity
          = "info") :=
  ⟨by decide,
    c6_special_case_precedes_missing [["img", "book", "PSA", "001.webp"]]
      ⟨"PS-A", "book.json", "book/PSA/001.webp", "book"⟩ ["img"]
      ["img", "book", "PSA", "001.webp"] (by decide) (by decide) (by decide)⟩

/-- C4, counterexample: the asset path `"001.webp"` has a single
`/`-delimited segment, yet `validate_image_reference` classifies it
`cross_source` with severity `info` — one of the ordinary outcome classes —
rather than any separate "cannot determine" data-error result.  No such
outcome class exists in the classifier: resolving to `None` at
image_path_utils.py lines 131-134 feeds the `expected_path is None` branch
at lines 324-335. -/
theorem c4_malformed_path_counterexample :
    (ImagePathUtils.validate_image_reference []
        ⟨"PHB", "items.json", "001.webp", "unknown"⟩ ["img"]).status
        = "cross_source"
      ∧ (ImagePathUtils.validate_image_reference []
        ⟨"PHB", "items.json", "001.webp", "unknown"⟩ ["img"]).severity
        = "info" :=
  ⟨by decide, by decide⟩

/-- C4, amended: for every asset path with fewer than two `/`-delimited
segments, both `get_expected_image_path` and `get_actual_image_path`
resolve to `None`, and `validate_image_reference` folds the reference into
the `cross_source` outcome with severity `info`; no separate
"cannot determine" data-error class is produced, so malformed paths are
indistinguishable from genuine cross-source references in the report. -/
theorem c4_malformed_path_amended (fs : List (List String))
    (ref : ImagePathUtils.ImageRef) (img_dir : List String) (x : String)
    (hsp : PyStr.split_char '/' ref.path = [x]) :
    ImagePathUtils.get_expected_image_path ref.source ref.path img_dir = none
    ∧ ImagePathUtils.get_actual_image_path fs ref.source ref.path img_dir = none
    ∧ (ImagePathUtils.validate_image_reference fs ref img_dir).status
        = "cross_source"
    ∧ (ImagePathUtils.validate_image_reference fs ref img_dir).severity
        = "info" := by
  open ImagePathUtils in
  have hso : split_once ref.path = [x] := by
    unfold split_once; rw [hsp]
  have hexp : get_expected_image_path ref.source ref.path img_dir = none := by
    unfold get_expected_image_path; rw [hso]
  have hact : get_actual_image_path fs ref.source ref.path img_dir = none := by
    unfold get_actual_image_path; rw [hso]
  refine ⟨hexp, hact, ?_⟩
  unfold ImagePathUtils.validate_image_reference ImagePathUtils.embedded_path_source
  dsimp only
  rw [hexp, hact, hsp]
  dsimp only
  simp only [Bool.and_false, if_false]
  exact ⟨rfl, rfl⟩

/-- C4 amended, witnessed on the malformed path `"001.webp"`. -/
theorem c4_malformed_path_amended_witness :
    PyStr.split_char '/' ("001.webp" : String) = ["001.webp"]
      ∧ (ImagePathUtils.get_expected_image_path "PHB" "001.webp" ["img"] = none
        ∧ ImagePathUtils.get_actual_image_path [] "PHB" "001.webp" ["img"] = none
        ∧ (ImagePathUtils.validate_image_reference []
            ⟨"PHB", "items.json", "001.webp", "unknown"⟩ ["img"]).status
            = "cross_source"
        ∧ (ImagePathUtils.validate_image_reference []
            ⟨"PHB", "items.json", "001.webp", "unknown"⟩ ["img"]).severity
            = "info") :=
  ⟨by decide,
    c4_malformed_path_amended [] ⟨"PHB", "items.json", "001.webp", "unknown"⟩
      ["img"] "001.webp" (by decide)⟩

namespace Verification

/-- A record context for link-checking examples. -/
def link_entity_info : CheckLinks.IdxEntity :=
  ⟨.str "Test", .str "PHB", .null, "spells.json"⟩

/-- The checker state at the start of a run. -/
def empty_link_state : CheckLinks.LinkState := ⟨0, [], []⟩

/-- A string leaf holding a formatting tag followed by an entity tag. -/
def tag_text_mixed : String := "\x7b@b bold\x7d \x7b@spell fireball|phb\x7d"

/-- The same entity tag alone. -/
def tag_text_spell : String := "\x7b@spell fireball|phb\x7d"

end Verification

/-- C3, failing input.  The scanner finds both occurrences in
`"{@b bold} {@spell fireball|phb}"`, and against an empty index the
`{@spell ...}` occurrence alone is reported broken; but in the combined
string the unrecognized formatting kind `b` executes `return` instead of
`continue` (check_links.py lines 191-192), abandoning the whole string:
only one occurrence is counted and the broken `{@spell ...}` link is never
reported, although the code's own comment says only non-entity tags are to
be filtered out and the spec says unrecognized kinds are merely ignored. -/
theorem c3_unrecognized_kind_aborts_scan :
    (CheckLinks.find_tags Verification.tag_text_mixed).length = 2
      ∧ (CheckLinks.check_string_links [] Verification.tag_text_spell
          Verification.link_entity_info "spells.json"
          Verification.empty_link_state).broken_links.length = 1
      ∧ (CheckLinks.check_string_links [] Verification.tag_text_mixed
          Verification.link_entity_info "spells.json"
          Verification.empty_link_state).broken_links = []
      ∧ (CheckLinks.check_string_links [] Verification.tag_text_mixed
          Verification.link_entity_info "spells.json"
          Verification.empty_link_state).total_links_checked = 1 :=
  ⟨by decide, by decide, by decide, by decide⟩

namespace Verification

/-- `n`-fold nesting of a value inside single-field objects, to probe the
walks' depth behaviour. -/
def deep_nest : Nat → Json → Json
  | 0, x => x
  | n + 1, x => .obj [("a", deep_nest n x)]

/-- The `href` object of an internally-hosted image reference. -/
def href_fields : List (String × Json) :=
  [("type", .str "internal"), ("path", .str "bestiary/MM/Goblin.webp")]

/-- A well-formed image-reference node. -/
def img_fields : List (String × Json) :=
  [("type", .str "image"), ("href", .obj href_fields)]

/-- The image-reference node as a JSON value. -/
def img_node : Json := .obj img_fields

/-- The reference `find_image_references` (utils.py) collects from
`img_node` when scanning for source `sid`. -/
def goblin_ref (sid : String) : ReorgUtils.UtilsImageRef :=
  ⟨"bestiary/MM/Goblin.webp", "internal", "bestiary" != sid, "bestiary"⟩

/-- The reorganize-side walk drops every node deeper than its 100-level
cap: nesting the image node below depth 100 yields no references. -/
theorem usearch_deep_nest_nil (sid : String) :
    ∀ n d, 100 < d + n → ReorgUtils.usearch sid d (deep_nest n img_node) = [] := by
  intro n
  induction n with
  | zero =>
      intro d hd
      show ReorgUtils.usearch sid d (.obj img_fields) = []
      simp only [ReorgUtils.usearch]
      rw [if_pos (by omega)]
  | succ n ih =>
      intro d hd
      show ReorgUtils.usearch sid d (.obj [("a", deep_nest n img_node)]) = []
      simp only [ReorgUtils.usearch]
      by_cases hdd : d > 100
      · rw [if_pos hdd]
      · rw [if_neg hdd]
        show [] ++ (ReorgUtils.usearch sid (d + 1) (deep_nest n img_node) ++ []) = []
        rw [ih (d + 1) (by omega)]
        rfl

/-- Within the cap the reorganize-side walk does collect the reference. -/
theorem usearch_deep_nest_found (sid : String) :
    ∀ n d, d + n ≤ 100 →
      ReorgUtils.usearch sid d (deep_nest n img_node) = [goblin_ref sid] := by
  intro n
  induction n with
  | zero =>
      intro d hd
      show ReorgUtils.usearch sid d (.obj img_fields) = [goblin_ref sid]
      simp only [ReorgUtils.usearch]
      rw [if_neg (by omega)]
      have hv : ReorgUtils.usearch_values sid (d + 1) img_fields
          = ReorgUtils.usearch sid (d + 1) (.obj href_fields) ++ [] := rfl
      rw [hv]
      have hh : ReorgUtils.usearch sid (d + 1) (.obj href_fields) = [] := by
        simp only [ReorgUtils.usearch]
        by_cases h1 : d + 1 > 100
        · rw [if_pos h1]
        · rw [if_neg h1]
          rfl
      rw [hh]
      rfl
  | succ n ih =>
      intro d hd
      show ReorgUtils.usearch sid d (.obj [("a", deep_nest n img_node)])
        = [goblin_ref sid]
      simp only [ReorgUtils.usearch]
      rw [if_neg (by omega)]
      show [] ++ (ReorgUtils.usearch sid (d + 1) (deep_nest n img_node) ++ [])
        = [goblin_ref sid]
      rw [ih (d + 1) (by omega)]
      rfl

/-- The validation-side walk extracts the reference at every depth: it has
no depth counter. -/
theorem vsearch_deep_nest (src file : String) :
    ∀ n, ImagePathUtils.vsearch src file (deep_nest n img_node)
      = [⟨src, file, "bestiary/MM/Goblin.webp", "bestiary"⟩] := by
  intro n
  induction n with
  | zero => rfl
  | succ n ih =>
      show ImagePathUtils.vsearch src file (.obj [("a", deep_nest n img_node)]) = _
      have e : ImagePathUtils.vsearch src file (.obj [("a", deep_nest n img_node)])
          = ImagePathUtils.vsearch src file (deep_nest n img_node) ++ [] := rfl
      rw [e, ih]
      rfl

/-- The tag scanner's walk reaches a string leaf at every depth: it has no
depth counter either. -/
theorem cel_deep_nest (idx : CheckLinks.Index) (einfo : CheckLinks.IdxEntity)
    (fp s : String) :
    ∀ n st, CheckLinks.check_entity_links idx einfo fp (deep_nest n (.str s)) st
      = CheckLinks.check_string_links idx s einfo fp st := by
  intro n
  induction n with
  | zero => intro st; rfl
  | succ n ih => intro st; exact ih st

end Verification

/-- C9, counterexample: of the three walks only the reorganize-side
`find_image_references` (utils.py) carries a depth counter (cap 100).  At
depth 150 it drops the branch, while the validation-side
`find_image_references` (image_path_utils.py) still extracts the image
reference and `_check_entity_links` (check_links.py) still scans the string
leaf — those two walks enforce no depth cap at all, contradicting the claim
that every walk does. -/
theorem c9_depth_cap_counterexample :
    ReorgUtils.find_image_references
        (Verification.deep_nest 150 Verification.img_node) "MM" = []
      ∧ ImagePathUtils.find_image_references
          (Verification.deep_nest 150 Verification.img_node) "MM" "bestiary.json"
        = [⟨"MM", "bestiary.json", "bestiary/MM/Goblin.webp", "bestiary"⟩]
      ∧ (CheckLinks.check_entity_links [] Verification.link_entity_info
          "bestiary.json"
          (Verification.deep_nest 150 (.str Verification.tag_text_spell))
          Verification.empty_link_state).total_links_checked = 1 :=
  ⟨Verification.usearch_deep_nest_nil "MM" 150 0 (by omega),
   Verification.vsearch_deep_nest "MM" "bestiary.json" 150,
   by rw [Verification.cel_deep_nest]; decide⟩

/-- C9, amended: only the reorganize-side asset walk
(`find_image_references`, utils.py) enforces a depth cap, of 100 levels —
deeper branches are silently dropped, not an error — while the tag
scanner's walk (`_check_entity_links`) and the validation-side asset walk
(`find_image_references`, image_path_utils.py) recurse without any depth
cap and process nodes at arbitrary depth (on cyclic or deep-enough input
the Python originals would exhaust the interpreter recursion limit). -/
theorem c9_depth_cap_amended (n : Nat) (sid src file fp s : String)
    (idx : CheckLinks.Index) (einfo : CheckLinks.IdxEntity)
    (st : CheckLinks.LinkState) :
    (100 < n → ReorgUtils.find_image_references
        (Verification.deep_nest n Verification.img_node) sid = [])
    ∧ (n ≤ 100 → ReorgUtils.find_image_references
        (Verification.deep_nest n Verification.img_node) sid
        = [Verification.goblin_ref sid])
    ∧ ImagePathUtils.find_image_references
        (Verification.deep_nest n Verification.img_node) src file
        = [⟨src, file, "bestiary/MM/Goblin.webp", "bestiary"⟩]
    ∧ CheckLinks.check_entity_links idx einfo fp
        (Verification.deep_nest n (.str s)) st
        = CheckLinks.check_string_links idx s einfo fp st :=
  ⟨fun h => Verification.usearch_deep_nest_nil sid n 0 (by omega),
   fun h => Verification.usearch_deep_nest_found sid n 0 (by omega),
   Verification.vsearch_deep_nest src file n,
   Verification.cel_deep_nest idx einfo fp s n st⟩

/-- C9 amended, witnessed at depths 150 (beyond the cap) and 100 (at the
cap). -/
theorem c9_depth_cap_amended_witness :
    (100 < 150
      ∧ ReorgUtils.find_image_references
          (Verification.deep_nest 150 Verification.img_node) "DMG" = [])
    ∧ (100 ≤ 100
      ∧ ReorgUtils.find_image_references
          (Verification.deep_nest 100 Verification.img_node) "DMG"
          = [Verification.goblin_ref "DMG"])
    ∧ ImagePathUtils.find_image_references
        (Verification.deep_nest 150 Verification.img_node) "DMG" "book.json"
        = [⟨"DMG", "book.json", "bestiary/MM/Goblin.webp", "bestiary"⟩]
    ∧ CheckLinks.check_entity_links [] Verification.link_entity_info "book.json"
        (Verification.deep_nest 150 (.str Verification.tag_text_spell))
        Verification.empty_link_state
        = CheckLinks.check_string_links [] Verification.tag_text_spell
            Verification.link_entity_info "book.json"
            Verification.empty_link_state :=
  ⟨⟨by omega,
    (c9_depth_cap_amended 150 "DMG" "DMG" "book.json" "book.json"
      Verification.tag_text_spell [] Verification.link_entity_info
      Verification.empty_link_state).1 (by omega)⟩,
   ⟨by omega,
    (c9_depth_cap_amended 100 "DMG" "DMG" "book.json" "book.json"
      Verification.tag_text_spell [] Verification.link_entity_info
      Verification.empty_link_state).2.1 (by omega)⟩,
   (c9_depth_cap_amended 150 "DMG" "DMG" "book.json" "book.json"
      Verification.tag_text_spell [] Verification.link_entity_info
      Verification.empty_link_state).2.2.1,
   (c9_depth_cap_amended 150 "DMG" "DMG" "book.json" "book.json"
      Verification.tag_text_spell [] Verification.link_entity_info
      Verification.empty_link_state).2.2.2⟩

namespace Verification

theorem lookup_mem {α β : Type} [BEq α] [LawfulBEq α] {l : List (α × β)} {k : α}
    {v : β} (h : l.lookup k = some v) : (k, v) ∈ l := by
  induction l with
  | nil => cases h
  | cons hd tl ih =>
      rw [List.lookup] at h
      split at h
      · next heq =>
          rw [Option.some_inj] at h
          obtain ⟨a, b⟩ := hd
          simp only at heq h
          have ha : k = a := LawfulBEq.eq_of_beq heq
          subst ha
          subst h
          exact List.mem_cons_self _ _
      · exact List.mem_cons_of_mem _ (ih h)

theorem exists_of_findSome {α β : Type} (f : α → Option β) :
    ∀ {l : List α} {b : β}, l.findSome? f = some b → ∃ a ∈ l, f a = some b := by
  intro l
  induction l with
  | nil => intro b h; cases h
  | cons x xs ih =>
      intro b h
      rw [List.findSome?] at h
      split at h
      · next heq => exact ⟨x, List.mem_cons_self _ _, by rw [heq, h]⟩
      · obtain ⟨a, ha, hfa⟩ := ih h
        exact ⟨a, List.mem_cons_of_mem _ ha, hfa⟩

/-- Well-formedness of the `LinkChecker.entities` index: every record filed
under a source key carries that key as its `source` field.
`_process_entities` establishes this by construction. -/
def index_wf (idx : CheckLinks.Index) : Bool :=
  idx.all (fun ce => ce.2.all (fun se => se.2.all (fun e => e.source == se.1)))

open CheckLinks in
/-- On a well-formed index, a lookup with a truthy explicit source only
returns records filed under a key that lowercases to the request — and by
well-formedness the record's own `source` does too. -/
theorem find_entity_wf {idx : Index} (hwf : index_wf idx = true)
    (tag_type name src : String) (hsrc : src ≠ "") {r : IdxEntity}
    (h : find_entity idx tag_type name (some src) = some r) :
    str_lower_eq r.source src = true := by
  unfold find_entity at h
  split at h
  · cases h
  · split at h
    · cases h
    · next category srcs hlu =>
        dsimp only at h
        rw [if_pos (by simpa using hsrc)] at h
        obtain ⟨se, hse, hf⟩ := exists_of_findSome _ h
        by_cases hls : str_lower_eq se.1 src = true
        · rw [if_pos hls] at hf
          have hr : r ∈ se.2 := List.mem_of_find?_eq_some hf
          have hmem := lookup_mem hlu
          rw [index_wf, List.all_eq_true] at hwf
          have h1 := hwf _ hmem
          rw [List.all_eq_true] at h1
          have h2 := h1 _ hse
          rw [List.all_eq_true] at h2
          have h3 := h2 _ hr
          have h4 : r.source = se.1 := eq_of_beq h3
          rw [h4]
          exact hls
        · rw [if_neg hls] at hf
          cases hf

open CheckLinks Json in
theorem idx_add_src_wf {srcs : List (Json × List CheckLinks.IdxEntity)}
    {source : Json} {e : CheckLinks.IdxEntity}
    (hs : srcs.all (fun se => se.2.all (fun x => x.source == se.1)) = true)
    (he : e.source = source) :
    (idx_add_src srcs source e).all
      (fun se => se.2.all (fun x => x.source == se.1)) = true := by
  induction srcs with
  | nil =>
      simp only [idx_add_src, List.all_cons, List.all_nil, Bool.and_true]
      simp [he]
  | cons hd tl ih =>
      obtain ⟨s, es⟩ := hd
      rw [List.all_cons, Bool.and_eq_true] at hs
      simp only [idx_add_src]
      by_cases hk : (s == source) = true
      · rw [if_pos hk]
        rw [List.all_cons, Bool.and_eq_true]
        refine ⟨?_, hs.2⟩
        simp only [List.all_append, Bool.and_eq_true]
        refine ⟨hs.1, ?_⟩
        simp only [List.all_cons, List.all_nil, Bool.and_true]
        rw [he]
        exact (LawfulBEq.eq_of_beq hk).symm ▸ (by simp)
      · rw [if_neg hk]
        rw [List.all_cons, Bool.and_eq_true]
        exact ⟨hs.1, ih hs.2⟩

open CheckLinks Json in
theorem idx_add_wf {idx : CheckLinks.Index} {category : String} {source : Json}
    {e : CheckLinks.IdxEntity} (hwf : index_wf idx = true)
    (he : e.source = source) :
    index_wf (idx_add idx category source e) = true := by
  induction idx with
  | nil =>
      simp only [idx_add, index_wf, List.all_cons, List.all_nil, Bool.and_true]
      simp [he]
  | cons hd tl ih =>
      obtain ⟨c, srcs⟩ := hd
      rw [index_wf, List.all_cons, Bool.and_eq_true] at hwf
      simp only [idx_add]
      by_cases hk : (c == category) = true
      · rw [if_pos hk]
        rw [index_wf, List.all_cons, Bool.and_eq_true]
        exact ⟨idx_add_src_wf hwf.1 he, hwf.2⟩
      · rw [if_neg hk]
        rw [index_wf, List.all_cons, Bool.and_eq_true]
        exact ⟨hwf.1, ih hwf.2⟩

open CheckLinks Json in
theorem process_entities_wf {idx : CheckLinks.Index} (entities : List Json)
    (category file : String) (hwf : index_wf idx = true) :
    index_wf (process_entities idx entities category file) = true := by
  induction entities generalizing idx with
  | nil => exact hwf
  | cons e tl ih =>
      unfold process_entities
      rw [List.foldl_cons]
      have hstep : ∀ idx', index_wf idx' = true →
          index_wf ((fun idx entity =>
            match entity with
            | Json.obj _ =>
                let name := py_or (py_or (entity.get "name") (entity.get "id"))
                  (entity.get "shortName")
                let source := entity.get "source"
                if otruthy name && otruthy source then
                  match name, source with
                  | some n, some s =>
                      idx_add idx category s
                        { name := n, source := s, data := entity, file := file }
                  | _, _ => idx
                else idx
            | _ => idx) idx' e) = true := by
        intro idx' h'
        cases e with
        | obj fs =>
            dsimp only
            split
            · split
              · exact idx_add_wf h' rfl
              · exact h'
            · exact h'
        | null => exact h'
        | bool b => exact h'
        | num n => exact h'
        | str s => exact h'
        | arr xs => exact h'
      exact ih (hstep idx hwf)

open CheckLinks in
/-- With a well-formed index, one recognized tag occurrence never appends a
cross-source link: with no (or an empty) requested source the branch is not
taken, and with a truthy requested source the found record's source always
matches it. -/
theorem check_tag_occurrence_cross {idx : Index} (hwf : index_wf idx = true)
    (einfo : IdxEntity) (fp : String) (st : LinkState) (m : TagMatch) :
    (check_tag_occurrence idx einfo fp st m).cross_source_links
      = st.cross_source_links := by
  unfold check_tag_occurrence
  dsimp only
  cases hps : parse_tag_source m.content with
  | none =>
      cases hfe : find_entity idx m.kind (parse_tag_name m.content) none with
      | none => rfl
      | some found => rfl
  | some src =>
      cases hfe : find_entity idx m.kind (parse_tag_name m.content) (some src) with
      | none => rfl
      | some found =>
          dsimp only
          by_cases hse : src = ""
          · subst hse
            simp
          · have hl := find_entity_wf hwf m.kind (parse_tag_name m.content) src hse hfe
            rw [hl]
            simp

open CheckLinks in
theorem check_tags_loop_cross {idx : Index} (hwf : index_wf idx = true)
    (einfo : IdxEntity) (fp : String) :
    ∀ (ms : List TagMatch) (st : LinkState),
      (check_tags_loop idx einfo fp ms st).cross_source_links
        = st.cross_source_links := by
  intro ms
  induction ms with
  | nil => intro st; rfl
  | cons m tl ih =>
      intro st
      rw [check_tags_loop]
      by_cases hk : (!ENTITY_TAGS.contains m.kind) = true
      · rw [if_pos hk]
      · rw [if_neg hk]
        rw [ih]
        exact check_tag_occurrence_cross hwf einfo fp _ m

/-- The PHB printing of Fireball, as a raw record. -/
def fireball_phb : Json := .obj [("name", .str "Fireball"), ("source", .str "PHB")]

/-- An XGE record with the same name. -/
def fireball_xge : Json := .obj [("name", .str "Fireball"), ("source", .str "XGE")]

/-- An index holding both Fireball printings under category `spell`. -/
def idx_fireball : CheckLinks.Index :=
  CheckLinks.process_entities [] [fireball_phb, fireball_xge] "spell" "spells.json"

/-- The indexed PHB record. -/
def phb_rec : CheckLinks.IdxEntity :=
  ⟨.str "Fireball", .str "PHB", fireball_phb, "spells.json"⟩

/-- A tag requesting Fireball explicitly from `dmg`, where it does not
exist. -/
def tag_text_spell_dmg : String := "\x7b@spell fireball|dmg\x7d"

end Verification

/-- C10, implicit behaviour of explicit-source lookups: on an index built by
`_process_entities` (well-formed: each record is filed under its own
source), (1) whenever `_find_entity` returns a record for an explicitly
requested (truthy) source, the record's source equals the request
case-insensitively; (2) `_process_entities` preserves index
well-formedness; (3) consequently `_check_string_links` never appends a
cross-source link — the `found["source"].lower() != source` branch is
unreachable; and (4) a recognized tag whose entity is not found under the
requested source is recorded as a broken link ("Entity not found")
instead. -/
theorem c10_explicit_source_lookup (idx : CheckLinks.Index)
    (hwf : Verification.index_wf idx = true) :
    (∀ tag_type name src : String, ∀ r : CheckLinks.IdxEntity, src ≠ "" →
        CheckLinks.find_entity idx tag_type name (some src) = some r →
        CheckLinks.str_lower_eq r.source src = true)
    ∧ (∀ (entities : List Json) (category file : String),
        Verification.index_wf
          (CheckLinks.process_entities idx entities category file) = true)
    ∧ (∀ (text : String) (einfo : CheckLinks.IdxEntity) (fp : String)
        (st : CheckLinks.LinkState),
        (CheckLinks.check_string_links idx text einfo fp st).cross_source_links
          = st.cross_source_links)
    ∧ (∀ (einfo : CheckLinks.IdxEntity) (fp : String)
        (st : CheckLinks.LinkState) (m : CheckLinks.TagMatch),
        CheckLinks.find_entity idx m.kind (CheckLinks.parse_tag_name m.content)
            (CheckLinks.parse_tag_source m.content) = none →
        (CheckLinks.check_tag_occurrence idx einfo fp st m).broken_links
          = st.broken_links ++
            [{ tag := m.full_tag
               tag_type := m.kind
               target_name := CheckLinks.parse_tag_name m.content
               target_source := CheckLinks.parse_tag_source m.content
               in_entity_name := einfo.name
               in_entity_source := einfo.source
               in_file := fp
               reason := "Entity not found" }]) :=
  ⟨fun tag_type name src r hne hfe =>
      Verification.find_entity_wf hwf tag_type name src hne hfe,
   fun entities category file =>
      Verification.process_entities_wf entities category file hwf,
   fun text einfo fp st =>
      Verification.check_tags_loop_cross hwf einfo fp
        (CheckLinks.find_tags text) st,
   fun einfo fp st m h => by
      unfold CheckLinks.check_tag_occurrence
      dsimp only
      rw [h]⟩

/-- C10, witnessed on the two-printing Fireball index: the request
`fireball|phb` returns the PHB record whose source matches, and the tag
`{@spell fireball|dmg}` produces no cross-source link (it is a broken link
instead). -/
theorem c10_explicit_source_lookup_witness :
    Verification.index_wf Verification.idx_fireball = true
      ∧ CheckLinks.str_lower_eq Verification.phb_rec.source "phb" = true
      ∧ (CheckLinks.check_string_links Verification.idx_fireball
          Verification.tag_text_spell_dmg Verification.link_entity_info
          "spells.json" Verification.empty_link_state).cross_source_links
        = Verification.empty_link_state.cross_source_links :=
  ⟨by decide,
   (c10_explicit_source_lookup Verification.idx_fireball (by decide)).1
     "spell" "fireball" "phb" Verification.phb_rec (by decide) (by decide),
   (c10_explicit_source_lookup Verification.idx_fireball (by decide)).2.2.1
     Verification.tag_text_spell_dmg Verification.link_entity_info
     "spells.json" Verification.empty_link_state⟩
